import Mathlib

/-!
Verification of the jira-release-action repository.

The development shallowly embeds the TypeScript sources:
  * `src/jira.ts` (client factory, version lookup, delete, upsert, payload
    preparation) — the file given as `src/unnamed/part_000`;
  * `src/main.ts` (orchestrator `run`);
  * `src/schema.ts` (valibot input validation).
Remote-tracker interaction is modelled by a `TrackerWorld` oracle supplying
the responses (and possible failures) of each kind of request, and every
operation returns the list of outbound requests it issued alongside its
result, so that "issues no request" properties are statable.

The JavaScript `Date` platform functions used by the sources
(`new Date(s)`, `Date.prototype.toISOString`) are modelled at the calendar
level for the ECMA-262 date-only interchange format `YYYY-MM-DD`
(the deterministic, specification-mandated part of JS date parsing):
parsing validates month and day-of-month ranges (leap years included) and
an out-of-range or non-conforming string yields an Invalid Date, on which
`toISOString` throws `RangeError: Invalid time value`.
-/

namespace JiraRelease

/-- A calendar date as used by the UTC date-only projection of a JS `Date`. -/
structure CivilDate where
  year : Nat
  month : Nat
  day : Nat
  deriving DecidableEq, Repr

/-- Gregorian leap-year test, as in ECMA-262 day-number computations. -/
def isLeapYear (y : Nat) : Bool :=
  (y % 4 == 0 && y % 100 != 0) || (y % 400 == 0)

/-- Number of days in a month of a given year. -/
def daysInMonth (y m : Nat) : Nat :=
  if m = 2 then (if isLeapYear y then 29 else 28)
  else if m = 4 ∨ m = 6 ∨ m = 9 ∨ m = 11 then 30
  else 31

/-- Validity of a civil date in the 4-digit-year range used by
`Date.prototype.toISOString`. -/
def ValidCivilDate (d : CivilDate) : Prop :=
  d.year ≤ 9999 ∧ 1 ≤ d.month ∧ d.month ≤ 12 ∧ 1 ≤ d.day ∧
    d.day ≤ daysInMonth d.year d.month

instance (d : CivilDate) : Decidable (ValidCivilDate d) := by
  unfold ValidCivilDate; infer_instance

/-- Numeric value of a decimal digit character. -/
def digitVal (c : Char) : Nat := c.toNat - 48

/-- The decimal digit character for `n % 10`. -/
def digitChar (n : Nat) : Char := Char.ofNat (48 + n % 10)

/-- Decimal digit test (codepoints 48–57). -/
def isDecimalDigit (c : Char) : Bool := 48 ≤ c.toNat && c.toNat ≤ 57

/-- List-level core of `parseISODate`. -/
def parseISODateList (l : List Char) : Option CivilDate :=
  match l with
  | [y1, y2, y3, y4, s1, m1, m2, s2, d1, d2] =>
    if s1 = '-' ∧ s2 = '-' ∧ isDecimalDigit y1 ∧ isDecimalDigit y2 ∧
        isDecimalDigit y3 ∧ isDecimalDigit y4 ∧ isDecimalDigit m1 ∧
        isDecimalDigit m2 ∧ isDecimalDigit d1 ∧ isDecimalDigit d2 then
      if 1 ≤ digitVal m1 * 10 + digitVal m2 ∧ digitVal m1 * 10 + digitVal m2 ≤ 12 ∧
          1 ≤ digitVal d1 * 10 + digitVal d2 ∧
          digitVal d1 * 10 + digitVal d2 ≤
            daysInMonth
              (digitVal y1 * 1000 + digitVal y2 * 100 + digitVal y3 * 10 + digitVal y4)
              (digitVal m1 * 10 + digitVal m2) then
        some ⟨digitVal y1 * 1000 + digitVal y2 * 100 + digitVal y3 * 10 + digitVal y4,
          digitVal m1 * 10 + digitVal m2, digitVal d1 * 10 + digitVal d2⟩
      else none
    else none
  | _ => none

/-- Model of parsing a JS date-only string: `new Date(s)` on the ECMA-262
date-time string format's date-only form `YYYY-MM-DD`, interpreted as UTC
midnight of that calendar day. Returns `none` for an Invalid Date
(non-conforming shape, non-digits, or out-of-range month/day). Engine-specific
fallback formats outside the interchange format are not modelled. -/
def parseISODate (s : String) : Option CivilDate :=
  parseISODateList s.toList

/-- List-level core of `formatISODate`. -/
def formatISODateList (t : CivilDate) : List Char :=
  [digitChar (t.year / 1000), digitChar (t.year / 100),
    digitChar (t.year / 10), digitChar t.year, '-',
    digitChar (t.month / 10), digitChar t.month, '-',
    digitChar (t.day / 10), digitChar t.day]

/-- Model of `date.toISOString().split("T")[0]` for a valid date: the
`YYYY-MM-DD` rendering (zero-padded) of the date's UTC calendar day. -/
def formatISODate (t : CivilDate) : String :=
  String.mk (formatISODateList t)

/-- Model of `new Date(s).toISOString().split("T")[0]`:
`none` represents the `RangeError: Invalid time value` thrown by
`toISOString` when `s` did not parse. -/
def normalizeDateString (s : String) : Option String :=
  (parseISODate s).map formatISODate

/-- JS whitespace as stripped by `String.prototype.trim` (ASCII part, which
is all that the action's inputs can contain in practice). -/
def isJsWhitespace (c : Char) : Bool :=
  c = ' ' ∨ c = '\t' ∨ c = '\n' ∨ c = '\r' ∨ c = '\x0b' ∨ c = '\x0c'

/-- Model of `String.prototype.trim`. -/
def jsTrim (s : String) : String :=
  String.mk (((s.toList.dropWhile isJsWhitespace).reverse.dropWhile
    isJsWhitespace).reverse)

/-- Helper for `jsSplitComma`: accumulates the current field (reversed). -/
def splitCommaAux : List Char → List Char → List String
  | [], acc => [String.mk acc.reverse]
  | c :: rest, acc =>
    if c = ',' then String.mk acc.reverse :: splitCommaAux rest []
    else splitCommaAux rest (c :: acc)

/-- Model of `String.prototype.split(",")`; note `"".split(",")` is `[""]`. -/
def jsSplitComma (s : String) : List String :=
  splitCommaAux s.toList []

/-- JS truthiness of a string: truthy iff non-empty. -/
def jsStrTruthy (s : String) : Bool := !(s == "")

/-- JS truthiness of a `string | undefined` value. -/
def jsOptTruthy : Option String → Bool
  | none => false
  | some s => jsStrTruthy s

/-! ## Data model (from `src/jira.ts` and the jira.js client types) -/

/-- `ProjectVersionUpsertParams` from `src/jira.ts`: the desired version
state. Optional TS fields are `Option`s. -/
structure ProjectVersionUpsertParams where
  name : String
  description : Option String
  released : Bool
  releaseDate : Option String
  archived : Bool
  deriving DecidableEq, Repr

/-- The fields of a jira.js `Version` that the sources read (`id`, `name`);
both are optional in the client's response type. -/
structure RemoteVersion where
  id : Option String
  name : Option String
  deriving DecidableEq, Repr

/-- jira.js `PageBeanVersion`: the page returned by
`getProjectVersionsPaginated`; its `values` array is optional. -/
structure PageBeanVersion where
  values : Option (List RemoteVersion)
  deriving DecidableEq, Repr

/-- The errors the modelled code can throw. All of them are JS `Error`
instances at runtime (so `error instanceof Error` holds for each). -/
inductive JiraError where
  /-- `new Error("Version " + name + " not found")` thrown by
  `deleteProjectVersionByName`. -/
  | notFound (name : String)
  /-- `RangeError: Invalid time value` thrown by `toISOString` on an
  Invalid Date. -/
  | invalidTimeValue
  /-- A `ValiError` thrown by `v.parse` with the schema issue's message. -/
  | validation (msg : String)
  /-- Any error surfaced by the jira.js client on a request. -/
  | remote (msg : String)
  deriving DecidableEq, Repr

/-- The `message` property of the corresponding JS `Error`. -/
def JiraError.message : JiraError → String
  | .notFound name => "Version " ++ name ++ " not found"
  | .invalidTimeValue => "Invalid time value"
  | .validation msg => msg
  | .remote msg => msg

/-- One outbound request to the tracker, with the data the sources put in
it. Create/update requests carry the prepared payload. -/
inductive TrackerRequest where
  | listVersions (projectIdOrKey : String) (query : String)
  | getProject (projectIdOrKey : String)
  | createVersion (payload : ProjectVersionUpsertParams) (projectId : Option String)
  | updateVersion (payload : ProjectVersionUpsertParams) (id : String)
  | deleteVersion (id : String)
  | tagIssue (versionId : Option String) (issueIdOrKey : String)
  deriving DecidableEq, Repr

/-- The payload a request carries, when it is a create or update request. -/
def requestPayload : TrackerRequest → Option ProjectVersionUpsertParams
  | .createVersion payload _ => some payload
  | .updateVersion payload _ => some payload
  | _ => none

/-- The environment: today's UTC calendar day (`new Date()`) and the
tracker's response — or failure — for each kind of request. `none` in an
error slot means the request succeeds. -/
structure TrackerWorld where
  today : CivilDate
  listError : Option JiraError
  listResponse : PageBeanVersion
  projectError : Option JiraError
  projectId : Option String
  createError : Option JiraError
  createResult : RemoteVersion
  updateError : Option JiraError
  updateResult : RemoteVersion
  deleteError : Option JiraError
  tagError : String → Option JiraError

/-! ## `src/jira.ts` -/

/-- The pure scan inside `getProjectVersionByName`:
`versions.values?.find((v) => v.name === name) || null`. -/
def findExactByName (name : String) (page : PageBeanVersion) :
    Option RemoteVersion :=
  match page.values with
  | none => none
  | some vs => vs.find? (fun v => v.name == some name)

/-- `getProjectVersionByName`: one paginated list request (name as
server-side query), then the exact-name scan of the returned page. -/
def getProjectVersionByName (w : TrackerWorld) (projectKey name : String) :
    Except JiraError (Option RemoteVersion) × List TrackerRequest :=
  match w.listError with
  | some e => (.error e, [.listVersions projectKey name])
  | none => (.ok (findExactByName name w.listResponse), [.listVersions projectKey name])

/-- `deleteProjectVersionByName`: look up by name; throw
`Version {name} not found` when the lookup yields nothing (or a version
with a falsy id); otherwise issue the delete request. -/
def deleteProjectVersionByName (w : TrackerWorld) (projectKey name : String) :
    Except JiraError Unit × List TrackerRequest :=
  match (getProjectVersionByName w projectKey name).1 with
  | .error e => (.error e, (getProjectVersionByName w projectKey name).2)
  | .ok none =>
    (.error (.notFound name), (getProjectVersionByName w projectKey name).2)
  | .ok (some v) =>
    if jsOptTruthy v.id then
      match w.deleteError with
      | some e =>
        (.error e, (getProjectVersionByName w projectKey name).2 ++
          [.deleteVersion (v.id.getD "")])
      | none =>
        (.ok (), (getProjectVersionByName w projectKey name).2 ++
          [.deleteVersion (v.id.getD "")])
    else (.error (.notFound name), (getProjectVersionByName w projectKey name).2)

/-- The expression `x ? new Date(x).toISOString().split("T")[0] : undefined`
(used at the top of `upsertProjectVersion` and in `prepareUpsertParams`'s
returned spread): a falsy value becomes `undefined`; a truthy one is
re-parsed and re-formatted, throwing on an Invalid Date. -/
def normalizeDateOrThrow (d : Option String) :
    Except JiraError (Option String) :=
  if jsOptTruthy d then
    match normalizeDateString (d.getD "") with
    | some r => .ok (some r)
    | none => .error .invalidTimeValue
  else .ok none

/-- The statement `if (params.releaseDate) { params.releaseDate = ... }` in
`prepareUpsertParams`: a truthy date is re-formatted (throwing on an
Invalid Date); a falsy one is left unchanged. -/
def reformatIfTruthy (d : Option String) :
    Except JiraError (Option String) :=
  if jsOptTruthy d then
    match normalizeDateString (d.getD "") with
    | some r => .ok (some r)
    | none => .error .invalidTimeValue
  else .ok d

/-- `prepareUpsertParams`: stamp today's date when released without a date;
clear the date when not released; then re-format any date present (twice:
once by mutation, once in the returned spread). -/
def prepareUpsertParams (today : CivilDate)
    (params : ProjectVersionUpsertParams) :
    Except JiraError ProjectVersionUpsertParams :=
  match reformatIfTruthy
      (if params.released && !jsOptTruthy params.releaseDate then
        some (formatISODate today)
      else if !params.released then none
      else params.releaseDate) with
  | .error e => .error e
  | .ok rd2 =>
    match normalizeDateOrThrow rd2 with
    | .error e => .error e
    | .ok rd3 => .ok { params with releaseDate := rd3 }

/-- `createProjectVersion`: resolve the project id (`getProject` request),
prepare the payload, then issue the create request. -/
def createProjectVersion (w : TrackerWorld) (projectKey : String)
    (params : ProjectVersionUpsertParams) :
    Except JiraError RemoteVersion × List TrackerRequest :=
  match w.projectError with
  | some e => (.error e, [.getProject projectKey])
  | none =>
    match prepareUpsertParams w.today params with
    | .error e => (.error e, [.getProject projectKey])
    | .ok prepared =>
      match w.createError with
      | some e => (.error e, [.getProject projectKey, .createVersion prepared w.projectId])
      | none => (.ok w.createResult, [.getProject projectKey, .createVersion prepared w.projectId])

/-- `updateProjectVersion`: prepare the payload, then issue the update
request addressed by the found version's id. -/
def updateProjectVersion (w : TrackerWorld) (versionId : String)
    (params : ProjectVersionUpsertParams) :
    Except JiraError RemoteVersion × List TrackerRequest :=
  match prepareUpsertParams w.today params with
  | .error e => (.error e, [])
  | .ok prepared =>
    match w.updateError with
    | some e => (.error e, [.updateVersion prepared versionId])
    | none => (.ok w.updateResult, [.updateVersion prepared versionId])

/-- `upsertProjectVersion`: normalize the incoming date (throwing on an
Invalid Date), look up by name, then update in place when a version with a
truthy id was found, else create. -/
def upsertProjectVersion (w : TrackerWorld) (projectKey : String)
    (params0 : ProjectVersionUpsertParams) :
    Except JiraError RemoteVersion × List TrackerRequest :=
  match normalizeDateOrThrow params0.releaseDate with
  | .error e => (.error e, [])
  | .ok rd =>
    match (getProjectVersionByName w projectKey params0.name).1 with
    | .error e => (.error e, (getProjectVersionByName w projectKey params0.name).2)
    | .ok (some v) =>
      if jsOptTruthy v.id then
        ((updateProjectVersion w (v.id.getD "") { params0 with releaseDate := rd }).1,
          (getProjectVersionByName w projectKey params0.name).2 ++
            (updateProjectVersion w (v.id.getD "") { params0 with releaseDate := rd }).2)
      else
        ((createProjectVersion w projectKey { params0 with releaseDate := rd }).1,
          (getProjectVersionByName w projectKey params0.name).2 ++
            (createProjectVersion w projectKey { params0 with releaseDate := rd }).2)
    | .ok none =>
      ((createProjectVersion w projectKey { params0 with releaseDate := rd }).1,
        (getProjectVersionByName w projectKey params0.name).2 ++
          (createProjectVersion w projectKey { params0 with releaseDate := rd }).2)

/-- Modelled from the spec: `setVersionOnIssues` (the Issue Tagger) is
imported by `src/main.ts` but its definition is not among the provided
source files. Per spec §4.5: one "set fix-version" request per issue key,
issued sequentially, and the first failure aborts the remaining requests
and propagates. -/
def setVersionOnIssues (w : TrackerWorld) (versionId : Option String)
    (issueIdsOrKeys : List String) :
    Except JiraError Unit × List TrackerRequest :=
  match issueIdsOrKeys with
  | [] => (.ok (), [])
  | k :: rest =>
    match w.tagError k with
    | some e => (.error e, [.tagIssue versionId k])
    | none =>
      ((setVersionOnIssues w versionId rest).1,
        .tagIssue versionId k :: (setVersionOnIssues w versionId rest).2)

/-! ## `src/schema.ts` and `src/main.ts` -/

/-- The flat record of raw action inputs, as read by `run` (booleans
already decoded by `core.getBooleanInput`). -/
structure Inputs where
  email : String
  api_token : String
  subdomain : String
  jira_project : String
  release_name : String
  operation : String
  tickets : String
  dry_run : Bool
  release_description : String
  release_released : Bool
  release_archived : Bool
  release_release_date : String
  deriving DecidableEq, Repr

/-- `InputSchema` from `src/schema.ts`: the valibot object schema (the
`operation` picklist) piped into the release-date check, which trims the
date and, when non-empty, requires it to parse as a valid date. `v.parse`
returns the input unchanged on success and throws a `ValiError` otherwise. -/
def validateInput (i : Inputs) : Except JiraError Inputs :=
  if i.operation = "create_or_update" ∨ i.operation = "delete" then
    if jsTrim i.release_release_date == "" then .ok i
    else if (parseISODate i.release_release_date).isSome then .ok i
    else .error (.validation "Release date must be a valid date.")
  else .error (.validation "Invalid type: Expected (\"create_or_update\" | \"delete\")")

/-- The `ProjectVersionUpsertParams` object literal `run` builds for the
`create_or_update` operation; note `release_release_date || undefined`. -/
def mkUpsertSpec (input : Inputs) : ProjectVersionUpsertParams :=
  { name := input.release_name
    description := some input.release_description
    released := input.release_released
    releaseDate := if input.release_release_date = "" then none
      else some input.release_release_date
    archived := input.release_archived }

/-- What `run` reports to the calling environment: success, or the failure
signal raised by `core.setFailed` with the caught error's message. -/
inductive RunOutcome where
  | success
  | failed (msg : String)
  deriving DecidableEq, Repr

/-- The body of `run`'s `try` block: validate, short-circuit on dry-run,
then dispatch to upsert (plus tagging when `tickets` is truthy) or delete. -/
def runBody (w : TrackerWorld) (raw : Inputs) :
    Except JiraError Unit × List TrackerRequest :=
  match validateInput raw with
  | .error e => (.error e, [])
  | .ok input =>
    if input.dry_run then (.ok (), [])
    else if input.operation = "create_or_update" then
      match (upsertProjectVersion w input.jira_project (mkUpsertSpec input)).1 with
      | .error e =>
        (.error e, (upsertProjectVersion w input.jira_project (mkUpsertSpec input)).2)
      | .ok version =>
        if jsStrTruthy input.tickets then
          ((setVersionOnIssues w version.id
              ((jsSplitComma input.tickets).map jsTrim)).1,
            (upsertProjectVersion w input.jira_project (mkUpsertSpec input)).2 ++
              (setVersionOnIssues w version.id
                ((jsSplitComma input.tickets).map jsTrim)).2)
        else
          (.ok (), (upsertProjectVersion w input.jira_project (mkUpsertSpec input)).2)
    else if input.operation = "delete" then
      deleteProjectVersionByName w input.jira_project input.release_name
    else (.ok (), [])

/-- `run`: the single top-level `try`/`catch` — any error thrown inside the
body is caught and turned into a `core.setFailed` call with the error's
`message` (every modelled error is an `Error` instance, so the
`instanceof Error` guard always passes). -/
def run (w : TrackerWorld) (raw : Inputs) :
    RunOutcome × List TrackerRequest :=
  match (runBody w raw).1 with
  | .ok _ => (.success, (runBody w raw).2)
  | .error e => (.failed e.message, (runBody w raw).2)

end JiraRelease

deriving instance DecidableEq for Except

namespace JiraRelease

/-! ## Helper lemmas: the date round trip -/

theorem digitChar_spec (n : Nat) :
    isDecimalDigit (digitChar n) = true ∧ digitVal (digitChar n) = n % 10 := by
  have h : n % 10 < 10 := Nat.mod_lt _ (by omega)
  have key : ∀ r, r < 10 →
      isDecimalDigit (Char.ofNat (48 + r)) = true ∧
        digitVal (Char.ofNat (48 + r)) = r := by decide
  exact key (n % 10) h

theorem isDecimalDigit_toNat {c : Char} (h : isDecimalDigit c = true) :
    48 ≤ c.toNat ∧ c.toNat ≤ 57 := by
  simpa [isDecimalDigit] using h

theorem daysInMonth_le_31 (y m : Nat) : daysInMonth y m ≤ 31 := by
  unfold daysInMonth
  split
  · split <;> omega
  · split <;> omega

theorem parseISODateList_ten (y1 y2 y3 y4 s1 m1 m2 s2 d1 d2 : Char) :
    parseISODateList [y1, y2, y3, y4, s1, m1, m2, s2, d1, d2] =
      if s1 = '-' ∧ s2 = '-' ∧ isDecimalDigit y1 ∧ isDecimalDigit y2 ∧
          isDecimalDigit y3 ∧ isDecimalDigit y4 ∧ isDecimalDigit m1 ∧
          isDecimalDigit m2 ∧ isDecimalDigit d1 ∧ isDecimalDigit d2 then
        if 1 ≤ digitVal m1 * 10 + digitVal m2 ∧ digitVal m1 * 10 + digitVal m2 ≤ 12 ∧
            1 ≤ digitVal d1 * 10 + digitVal d2 ∧
            digitVal d1 * 10 + digitVal d2 ≤
              daysInMonth
                (digitVal y1 * 1000 + digitVal y2 * 100 + digitVal y3 * 10 + digitVal y4)
                (digitVal m1 * 10 + digitVal m2) then
          some ⟨digitVal y1 * 1000 + digitVal y2 * 100 + digitVal y3 * 10 + digitVal y4,
            digitVal m1 * 10 + digitVal m2, digitVal d1 * 10 + digitVal d2⟩
        else none
      else none := rfl

theorem parseISODate_formatISODate (t : CivilDate) (h : ValidCivilDate t) :
    parseISODate (formatISODate t) = some t := by
  obtain ⟨hy, hm1, hm2, hd1, hd2⟩ := h
  have hd31 : t.day ≤ 31 := le_trans hd2 (daysInMonth_le_31 t.year t.month)
  have e1 := digitChar_spec (t.year / 1000)
  have e2 := digitChar_spec (t.year / 100)
  have e3 := digitChar_spec (t.year / 10)
  have e4 := digitChar_spec t.year
  have e5 := digitChar_spec (t.month / 10)
  have e6 := digitChar_spec t.month
  have e7 := digitChar_spec (t.day / 10)
  have e8 := digitChar_spec t.day
  show parseISODateList (formatISODateList t) = some t
  unfold formatISODateList
  rw [parseISODateList_ten,
    if_pos ⟨rfl, rfl, e1.1, e2.1, e3.1, e4.1, e5.1, e6.1, e7.1, e8.1⟩]
  simp only [e1.2, e2.2, e3.2, e4.2, e5.2, e6.2, e7.2, e8.2]
  have hyv : t.year / 1000 % 10 * 1000 + t.year / 100 % 10 * 100 +
      t.year / 10 % 10 * 10 + t.year % 10 = t.year := by omega
  have hmv : t.month / 10 % 10 * 10 + t.month % 10 = t.month := by omega
  have hdv : t.day / 10 % 10 * 10 + t.day % 10 = t.day := by omega
  rw [hyv, hmv, hdv, if_pos ⟨hm1, hm2, hd1, hd2⟩]

theorem parseISODate_valid {s : String} {t : CivilDate}
    (h : parseISODate s = some t) : ValidCivilDate t := by
  unfold parseISODate at h
  generalize s.toList = l at h
  unfold parseISODateList at h
  split at h
  · split at h
    · next hguard =>
      split at h
      · next hrange =>
        obtain ⟨-, -, h1, h2, h3, h4, -⟩ := hguard
        have b1 := isDecimalDigit_toNat h1
        have b2 := isDecimalDigit_toNat h2
        have b3 := isDecimalDigit_toNat h3
        have b4 := isDecimalDigit_toNat h4
        injection h with h
        subst h
        refine ⟨?_, hrange.1, hrange.2.1, hrange.2.2.1, hrange.2.2.2⟩
        simp only [digitVal]
        omega
      · exact absurd h (by simp)
    · exact absurd h (by simp)
  · exact absurd h (by simp)

theorem formatISODate_ne_empty (t : CivilDate) : formatISODate t ≠ "" := by
  intro h
  have : formatISODateList t = [] := by
    have := congrArg String.data h
    simpa [formatISODate] using this
  simp [formatISODateList] at this

theorem jsStrTruthy_iff (s : String) : jsStrTruthy s = true ↔ s ≠ "" := by
  simp [jsStrTruthy]

theorem normalizeDateString_formatISODate (t : CivilDate)
    (h : ValidCivilDate t) :
    normalizeDateString (formatISODate t) = some (formatISODate t) := by
  unfold normalizeDateString
  rw [parseISODate_formatISODate t h]
  rfl

/-! ## Helper lemmas: payload preparation -/

theorem prepareUpsertParams_unreleased (today : CivilDate)
    (params : ProjectVersionUpsertParams) (h : params.released = false) :
    prepareUpsertParams today params =
      .ok { params with releaseDate := none } := by
  simp [prepareUpsertParams, h, reformatIfTruthy, normalizeDateOrThrow,
    jsOptTruthy]

theorem prepareUpsertParams_released_noDate (today : CivilDate)
    (params : ProjectVersionUpsertParams) (hr : params.released = true)
    (hn : jsOptTruthy params.releaseDate = false)
    (ht : ValidCivilDate today) :
    prepareUpsertParams today params =
      .ok { params with releaseDate := some (formatISODate today) } := by
  have hne : jsStrTruthy (formatISODate today) = true :=
    (jsStrTruthy_iff _).mpr (formatISODate_ne_empty today)
  have hnorm := normalizeDateString_formatISODate today ht
  have h1 : reformatIfTruthy (some (formatISODate today)) =
      .ok (some (formatISODate today)) := by
    simp [reformatIfTruthy, jsOptTruthy, hne, hnorm]
  have h2 : normalizeDateOrThrow (some (formatISODate today)) =
      .ok (some (formatISODate today)) := by
    simp [normalizeDateOrThrow, jsOptTruthy, hne, hnorm]
  simp [prepareUpsertParams, hr, hn, h1, h2]

/-- Every payload-carrying request `createProjectVersion` issues carries the
prepared payload. -/
theorem createProjectVersion_payload (w : TrackerWorld) (pk : String)
    (params : ProjectVersionUpsertParams) :
    ∀ req ∈ (createProjectVersion w pk params).2, ∀ p,
      requestPayload req = some p →
        prepareUpsertParams w.today params = .ok p := by
  intro req hreq p hp
  unfold createProjectVersion at hreq
  cases hpe : w.projectError with
  | some e =>
    rw [hpe] at hreq
    simp only [List.mem_singleton] at hreq
    subst hreq
    simp [requestPayload] at hp
  | none =>
    rw [hpe] at hreq
    cases hprep : prepareUpsertParams w.today params with
    | error e =>
      rw [hprep] at hreq
      simp only [List.mem_singleton] at hreq
      subst hreq
      simp [requestPayload] at hp
    | ok prepared =>
      rw [hprep] at hreq
      cases hc : w.createError with
      | some e =>
        rw [hc] at hreq
        simp only [List.mem_cons, List.mem_singleton, List.not_mem_nil,
          or_false] at hreq
        rcases hreq with h | h
        · subst h
          simp [requestPayload] at hp
        · subst h
          simp only [requestPayload, Option.some.injEq] at hp
          rw [hp]
      | none =>
        rw [hc] at hreq
        simp only [List.mem_cons, List.mem_singleton, List.not_mem_nil,
          or_false] at hreq
        rcases hreq with h | h
        · subst h
          simp [requestPayload] at hp
        · subst h
          simp only [requestPayload, Option.some.injEq] at hp
          rw [hp]

/-- Every payload-carrying request `updateProjectVersion` issues carries the
prepared payload. -/
theorem updateProjectVersion_payload (w : TrackerWorld) (vid : String)
    (params : ProjectVersionUpsertParams) :
    ∀ req ∈ (updateProjectVersion w vid params).2, ∀ p,
      requestPayload req = some p →
        prepareUpsertParams w.today params = .ok p := by
  intro req hreq p hp
  unfold updateProjectVersion at hreq
  cases hprep : prepareUpsertParams w.today params with
  | error e =>
    rw [hprep] at hreq
    cases hreq
  | ok prepared =>
    rw [hprep] at hreq
    cases hu : w.updateError with
    | some e =>
      rw [hu] at hreq
      simp only [List.mem_singleton] at hreq
      subst hreq
      simp only [requestPayload, Option.some.injEq] at hp
      rw [hp]
    | none =>
      rw [hu] at hreq
      simp only [List.mem_singleton] at hreq
      subst hreq
      simp only [requestPayload, Option.some.injEq] at hp
      rw [hp]

/-- Every payload-carrying request `upsertProjectVersion` issues carries the
result of `prepareUpsertParams` applied to the spec whose date was first
normalized by the top-of-function reformatting. -/
theorem upsertProjectVersion_payload (w : TrackerWorld) (pk : String)
    (params0 : ProjectVersionUpsertParams) :
    ∀ req ∈ (upsertProjectVersion w pk params0).2, ∀ p,
      requestPayload req = some p →
        ∃ rd, normalizeDateOrThrow params0.releaseDate = .ok rd ∧
          prepareUpsertParams w.today { params0 with releaseDate := rd } =
            .ok p := by
  intro req hreq p hp
  unfold upsertProjectVersion at hreq
  cases hn : normalizeDateOrThrow params0.releaseDate with
  | error e =>
    rw [hn] at hreq
    cases hreq
  | ok rd =>
    rw [hn] at hreq
    refine ⟨rd, rfl, ?_⟩
    cases hl : w.listError with
    | some e =>
      simp only [getProjectVersionByName, hl, List.mem_singleton] at hreq
      subst hreq
      simp [requestPayload] at hp
    | none =>
      cases hf : findExactByName params0.name w.listResponse with
      | none =>
        simp [getProjectVersionByName, hl, hf] at hreq
        rcases hreq with h | h
        · subst h
          simp [requestPayload] at hp
        · exact createProjectVersion_payload w pk _ req h p hp
      | some v =>
        cases hid : jsOptTruthy v.id with
        | true =>
          simp [getProjectVersionByName, hl, hf, hid] at hreq
          rcases hreq with h | h
          · subst h
            simp [requestPayload] at hp
          · exact updateProjectVersion_payload w (v.id.getD "") _ req h p hp
        | false =>
          simp [getProjectVersionByName, hl, hf, hid] at hreq
          rcases hreq with h | h
          · subst h
            simp [requestPayload] at hp
          · exact createProjectVersion_payload w pk _ req h p hp

/-! ## Sample data used by witnesses and counterexamples -/

/-- A concrete world: empty version page, all requests succeed. -/
def sampleWorld : TrackerWorld :=
  { today := ⟨2024, 5, 17⟩
    listError := none
    listResponse := ⟨some []⟩
    projectError := none
    projectId := some "10000"
    createError := none
    createResult := ⟨some "100", some "v1.2.0"⟩
    updateError := none
    updateResult := ⟨some "100", some "v1.2.0"⟩
    deleteError := none
    tagError := fun _ => none }

/-- Concrete raw inputs for a `create_or_update` run. -/
def sampleInputs : Inputs :=
  { email := "me@example.com", api_token := "tok", subdomain := "acme",
    jira_project := "PRJ", release_name := "v1.2.0",
    operation := "create_or_update", tickets := "AB-1, AB-2",
    dry_run := false, release_description := "desc",
    release_released := false, release_archived := false,
    release_release_date := "" }

/-- A version spec whose release date does not parse. -/
def sampleMalformedParams : ProjectVersionUpsertParams :=
  { name := "v1.2.0", description := none, released := true,
    releaseDate := some "not-a-date", archived := false }

/-! ## Claims -/

/-- C1: For every VersionSpec with `released = false`, the payload that
upsert sends to either create or update carries no release date, even when
a release date was supplied in the input spec. -/
theorem claim1_unreleased_payload_has_no_date (w : TrackerWorld)
    (pk : String) (params : ProjectVersionUpsertParams)
    (h : params.released = false) :
    ∀ req ∈ (upsertProjectVersion w pk params).2, ∀ p,
      requestPayload req = some p → p.releaseDate = none := by
  intro req hreq p hp
  obtain ⟨rd, hrd, hprep⟩ :=
    upsertProjectVersion_payload w pk params req hreq p hp
  rw [prepareUpsertParams_unreleased w.today
    { params with releaseDate := rd }
    (show ({ params with releaseDate := rd } :
      ProjectVersionUpsertParams).released = false from h)] at hprep
  injection hprep with hprep
  rw [← hprep]

theorem claim1_witness :
    ({ name := "v1.2.0", description := none, released := false,
        releaseDate := some "2024-01-02", archived := false } :
      ProjectVersionUpsertParams).released = false ∧
    ∀ req ∈ (upsertProjectVersion sampleWorld "PRJ"
        { name := "v1.2.0", description := none, released := false,
          releaseDate := some "2024-01-02", archived := false }).2, ∀ p,
      requestPayload req = some p → p.releaseDate = none :=
  ⟨rfl, claim1_unreleased_payload_has_no_date sampleWorld "PRJ" _ rfl⟩

/-- C2: For every VersionSpec with `released = true` and no supplied
release date, the payload that upsert sends to create or update has its
release date equal to the current UTC calendar day formatted as
`YYYY-MM-DD`. -/
theorem claim2_released_no_date_payload_is_today (w : TrackerWorld)
    (pk : String) (params : ProjectVersionUpsertParams)
    (hr : params.released = true)
    (hn : jsOptTruthy params.releaseDate = false)
    (ht : ValidCivilDate w.today) :
    ∀ req ∈ (upsertProjectVersion w pk params).2, ∀ p,
      requestPayload req = some p →
        p.releaseDate = some (formatISODate w.today) := by
  intro req hreq p hp
  obtain ⟨rd, hrd, hprep⟩ :=
    upsertProjectVersion_payload w pk params req hreq p hp
  have hrdnone : rd = none := by
    rw [normalizeDateOrThrow, hn] at hrd
    simp at hrd
    exact hrd.symm
  subst hrdnone
  rw [prepareUpsertParams_released_noDate w.today
    { params with releaseDate := none }
    (show ({ params with releaseDate := none } :
      ProjectVersionUpsertParams).released = true from hr)
    (show jsOptTruthy ({ params with releaseDate := none } :
      ProjectVersionUpsertParams).releaseDate = false from rfl) ht] at hprep
  injection hprep with hprep
  rw [← hprep]

theorem claim2_witness :
    ({ name := "v1.2.0", description := none, released := true,
        releaseDate := none, archived := false } :
      ProjectVersionUpsertParams).released = true ∧
    jsOptTruthy (none : Option String) = false ∧
    ValidCivilDate sampleWorld.today ∧
    ∀ req ∈ (upsertProjectVersion sampleWorld "PRJ"
        { name := "v1.2.0", description := none, released := true,
          releaseDate := none, archived := false }).2, ∀ p,
      requestPayload req = some p →
        p.releaseDate = some (formatISODate sampleWorld.today) :=
  ⟨rfl, rfl, by decide,
    claim2_released_no_date_payload_is_today sampleWorld "PRJ" _ rfl rfl
      (by decide)⟩

/-- C3 counterexample: with the malformed date `"not-a-date"`, the upsert
throws `RangeError: Invalid time value` before any request; it does not
behave as if the date were absent (the absent-date run proceeds and
differs). -/
theorem claim3_counterexample :
    upsertProjectVersion sampleWorld "PRJ" sampleMalformedParams =
      (.error .invalidTimeValue, []) ∧
    upsertProjectVersion sampleWorld "PRJ" sampleMalformedParams ≠
      upsertProjectVersion sampleWorld "PRJ"
        { sampleMalformedParams with releaseDate := none } := by
  constructor
  · decide
  · decide

/-- C3 amended: during upsert, if the supplied (truthy) release date fails
to parse as a date, the first normalization step throws
`RangeError: Invalid time value` (from `toISOString` on an Invalid Date),
so the upsert fails before issuing any request — the malformed date is not
treated as absent. -/
theorem claim3_amended_malformed_date_throws (w : TrackerWorld)
    (pk : String) (params : ProjectVersionUpsertParams) (s : String)
    (h1 : params.releaseDate = some s) (h2 : jsStrTruthy s = true)
    (h3 : parseISODate s = none) :
    upsertProjectVersion w pk params = (.error .invalidTimeValue, []) := by
  have hthrow : normalizeDateOrThrow params.releaseDate =
      .error .invalidTimeValue := by
    simp [normalizeDateOrThrow, h1, jsOptTruthy, h2, normalizeDateString, h3]
  unfold upsertProjectVersion
  rw [hthrow]

theorem claim3_witness :
    sampleMalformedParams.releaseDate = some "not-a-date" ∧
    jsStrTruthy "not-a-date" = true ∧
    parseISODate "not-a-date" = none ∧
    upsertProjectVersion sampleWorld "PRJ" sampleMalformedParams =
      (.error .invalidTimeValue, []) :=
  ⟨rfl, rfl, by decide,
    claim3_amended_malformed_date_throws sampleWorld "PRJ"
      sampleMalformedParams "not-a-date" rfl rfl (by decide)⟩

/-- C9: date normalization is idempotent — whenever normalization of a
date input string succeeds, normalizing its output again succeeds and
returns it unchanged. -/
theorem claim9_normalize_idempotent (s r : String)
    (h : normalizeDateString s = some r) :
    normalizeDateString r = some r := by
  unfold normalizeDateString at h
  cases hp : parseISODate s with
  | none =>
    rw [hp] at h
    cases h
  | some t =>
    rw [hp] at h
    injection h with h
    subst h
    unfold normalizeDateString
    rw [parseISODate_formatISODate t (parseISODate_valid hp)]
    rfl

theorem claim9_witness :
    normalizeDateString "2024-05-17" = some "2024-05-17" ∧
    normalizeDateString "2024-05-17" = some "2024-05-17" :=
  ⟨by decide, claim9_normalize_idempotent "2024-05-17" "2024-05-17" (by decide)⟩

/-- C5: `deleteProjectVersionByName` on a name with no matching remote
version fails with the not-found error carrying that name and issues no
delete request; and any delete request it ever issues comes after a
successful lookup of a version with that id. -/
theorem claim5_delete_not_found (w : TrackerWorld) (pk name : String) :
    (w.listError = none → findExactByName name w.listResponse = none →
      deleteProjectVersionByName w pk name =
        (.error (.notFound name), [.listVersions pk name])) ∧
    (∀ id, TrackerRequest.deleteVersion id ∈
        (deleteProjectVersionByName w pk name).2 →
      ∃ v, w.listError = none ∧
        findExactByName name w.listResponse = some v ∧
        v.id = some id ∧ id ≠ "") := by
  constructor
  · intro hl hf
    simp [deleteProjectVersionByName, getProjectVersionByName, hl, hf]
  · intro id hmem
    cases hl : w.listError with
    | some e =>
      simp [deleteProjectVersionByName, getProjectVersionByName, hl] at hmem
    | none =>
      cases hf : findExactByName name w.listResponse with
      | none =>
        simp [deleteProjectVersionByName, getProjectVersionByName, hl,
          hf] at hmem
      | some v =>
        cases hvid : v.id with
        | none =>
          simp [deleteProjectVersionByName, getProjectVersionByName, hl, hf,
            hvid, jsOptTruthy] at hmem
        | some s =>
          by_cases hs : s = ""
          · subst hs
            simp [deleteProjectVersionByName, getProjectVersionByName, hl,
              hf, hvid, jsOptTruthy, jsStrTruthy] at hmem
          · cases hd : w.deleteError with
            | some e =>
              simp [deleteProjectVersionByName, getProjectVersionByName, hl,
                hf, hvid, jsOptTruthy, jsStrTruthy, hs, hd] at hmem
              subst hmem
              exact ⟨v, rfl, rfl, hvid, hs⟩
            | none =>
              simp [deleteProjectVersionByName, getProjectVersionByName, hl,
                hf, hvid, jsOptTruthy, jsStrTruthy, hs, hd] at hmem
              subst hmem
              exact ⟨v, rfl, rfl, hvid, hs⟩

theorem claim5_witness :
    sampleWorld.listError = none ∧
    findExactByName "v9" sampleWorld.listResponse = none ∧
    deleteProjectVersionByName sampleWorld "PRJ" "v9" =
      (.error (.notFound "v9"), [.listVersions "PRJ" "v9"]) :=
  ⟨rfl, by decide,
    (claim5_delete_not_found sampleWorld "PRJ" "v9").1 rfl (by decide)⟩

/-- C6: version lookup returns the first element of the server-returned
page whose name is exactly (case-sensitively) equal to the requested name,
and returns NotFound (`none`) when the page is absent or contains no exact
match. -/
theorem claim6_lookup_first_exact_match (name : String)
    (page : PageBeanVersion) :
    (findExactByName name page = none ↔
      page.values = none ∨
        ∃ vs, page.values = some vs ∧ ∀ v ∈ vs, v.name ≠ some name) ∧
    (∀ v, findExactByName name page = some v →
      v.name = some name ∧
        ∃ vs l1 l2, page.values = some vs ∧ vs = l1 ++ v :: l2 ∧
          ∀ u ∈ l1, u.name ≠ some name) := by
  cases hv : page.values with
  | none =>
    constructor
    · simp [findExactByName, hv]
    · intro v h
      simp [findExactByName, hv] at h
  | some vs =>
    constructor
    · constructor
      · intro h
        simp only [findExactByName, hv] at h
        right
        refine ⟨vs, rfl, ?_⟩
        intro v hvmem
        have h2 := List.find?_eq_none.mp h v hvmem
        simpa using h2
      · rintro (h | ⟨vs', hvs', hall⟩)
        · cases h
        · injection hvs' with e
          subst e
          simp only [findExactByName, hv]
          apply List.find?_eq_none.mpr
          intro x hx
          simpa using hall x hx
    · intro v h
      simp only [findExactByName, hv] at h
      obtain ⟨hpv, l1, l2, heq, hall⟩ := List.find?_eq_some.mp h
      refine ⟨by simpa using hpv, vs, l1, l2, rfl, heq, ?_⟩
      intro u hu
      have := hall u hu
      simpa using this

theorem claim6_witness :
    findExactByName "v1"
        ⟨some [⟨some "7", some "v10"⟩, ⟨some "8", some "v1"⟩,
          ⟨some "9", some "v1"⟩]⟩ =
      some ⟨some "8", some "v1"⟩ ∧
    (⟨some "8", some "v1"⟩ : RemoteVersion).name = some "v1" ∧
    ∃ vs l1 l2,
      (⟨some [⟨some "7", some "v10"⟩, ⟨some "8", some "v1"⟩,
          ⟨some "9", some "v1"⟩]⟩ : PageBeanVersion).values = some vs ∧
      vs = l1 ++ (⟨some "8", some "v1"⟩ : RemoteVersion) :: l2 ∧
      ∀ u ∈ l1, u.name ≠ some "v1" := by
  refine ⟨by decide, ?_⟩
  exact (claim6_lookup_first_exact_match "v1"
    ⟨some [⟨some "7", some "v10"⟩, ⟨some "8", some "v1"⟩,
      ⟨some "9", some "v1"⟩]⟩).2 ⟨some "8", some "v1"⟩ (by decide)

/-- The failure signal never changes the issued-request list: `run` reports
exactly the requests its body issued. -/
theorem run_trace (w : TrackerWorld) (raw : Inputs) :
    (run w raw).2 = (runBody w raw).2 := by
  unfold run
  split <;> rfl

/-- C4: every error thrown by any downstream component is caught once at
the top level of `run` and converted into a failure signal carrying the
error's message; a run with no error reports success. No error escapes
`run`. -/
theorem claim4_run_catches_all_errors (w : TrackerWorld) (raw : Inputs) :
    ((runBody w raw).1 = .ok () → run w raw = (.success, (runBody w raw).2)) ∧
    (∀ e, (runBody w raw).1 = .error e →
      run w raw = (.failed e.message, (runBody w raw).2)) := by
  constructor
  · intro h
    unfold run
    rw [h]
  · intro e h
    unfold run
    rw [h]

/-- Raw inputs whose operation is not in the schema's picklist. -/
def sampleBadOpInputs : Inputs :=
  { sampleInputs with operation := "destroy" }

theorem claim4_witness :
    (runBody sampleWorld sampleBadOpInputs).1 =
      .error (.validation
        "Invalid type: Expected (\"create_or_update\" | \"delete\")") ∧
    run sampleWorld sampleBadOpInputs =
      (.failed (JiraError.validation
          "Invalid type: Expected (\"create_or_update\" | \"delete\")").message,
        (runBody sampleWorld sampleBadOpInputs).2) :=
  ⟨by decide,
    (claim4_run_catches_all_errors sampleWorld sampleBadOpInputs).2 _
      (by decide)⟩

/-- C7: with `dry_run = true` and a configuration that validates, `run`
issues zero outbound tracker requests and succeeds. -/
theorem claim7_dry_run_no_requests (w : TrackerWorld) (raw input : Inputs)
    (hv : validateInput raw = .ok input) (hd : input.dry_run = true) :
    run w raw = (.success, []) := by
  have hb : runBody w raw = (.ok (), []) := by
    unfold runBody
    rw [hv]
    simp [hd]
  unfold run
  rw [hb]

/-- Raw inputs for a dry run. -/
def sampleDryInputs : Inputs :=
  { sampleInputs with dry_run := true }

theorem claim7_witness :
    validateInput sampleDryInputs = .ok sampleDryInputs ∧
    sampleDryInputs.dry_run = true ∧
    run sampleWorld sampleDryInputs = (.success, []) :=
  ⟨by decide, rfl,
    claim7_dry_run_no_requests sampleWorld sampleDryInputs sampleDryInputs
      (by decide) rfl⟩

/-- C8: after a successful create-or-update, `tickets = "AB-1, AB-2"`
yields exactly the two tagging requests for the trimmed keys, in order,
and a failure of the first prevents the second; `tickets = ""` yields no
tagging request. -/
theorem claim8_tickets_tagging (w : TrackerWorld) (raw input : Inputs)
    (v : RemoteVersion) (tr : List TrackerRequest)
    (hv : validateInput raw = .ok input) (hd : input.dry_run = false)
    (hop : input.operation = "create_or_update")
    (hup : upsertProjectVersion w input.jira_project (mkUpsertSpec input) =
      (.ok v, tr)) :
    (input.tickets = "AB-1, AB-2" →
      (∀ e, w.tagError "AB-1" = some e →
        run w raw = (.failed e.message, tr ++ [.tagIssue v.id "AB-1"])) ∧
      (w.tagError "AB-1" = none →
        (run w raw).2 =
          tr ++ [.tagIssue v.id "AB-1", .tagIssue v.id "AB-2"])) ∧
    (input.tickets = "" → run w raw = (.success, tr)) := by
  have h1 : (upsertProjectVersion w input.jira_project
      (mkUpsertSpec input)).1 = .ok v := by rw [hup]
  have h2 : (upsertProjectVersion w input.jira_project
      (mkUpsertSpec input)).2 = tr := by rw [hup]
  constructor
  · intro htick
    have htruthy : jsStrTruthy input.tickets = true := by
      rw [htick]
      decide
    have hkeys : (jsSplitComma input.tickets).map jsTrim = ["AB-1", "AB-2"] := by
      rw [htick]
      decide
    constructor
    · intro e he
      have htag : setVersionOnIssues w v.id ["AB-1", "AB-2"] =
          (.error e, [.tagIssue v.id "AB-1"]) := by
        simp [setVersionOnIssues, he]
      have hbody : runBody w raw =
          (.error e, tr ++ [.tagIssue v.id "AB-1"]) := by
        simp [runBody, hv, hd, hop, h1, h2, htruthy, hkeys, htag]
      unfold run
      rw [hbody]
    · intro he
      have htrace : (setVersionOnIssues w v.id ["AB-1", "AB-2"]).2 =
          [.tagIssue v.id "AB-1", .tagIssue v.id "AB-2"] := by
        cases h3 : w.tagError "AB-2" with
        | some e2 => simp [setVersionOnIssues, he, h3]
        | none => simp [setVersionOnIssues, he, h3]
      have hbody : (runBody w raw).2 =
          tr ++ [.tagIssue v.id "AB-1", .tagIssue v.id "AB-2"] := by
        simp [runBody, hv, hd, hop, h1, h2, htruthy, hkeys, htrace]
      rw [run_trace, hbody]
  · intro htick
    have hfalse : jsStrTruthy input.tickets = false := by
      rw [htick]
      decide
    have hbody : runBody w raw = (.ok (), tr) := by
      simp [runBody, hv, hd, hop, h1, h2, hfalse]
    unfold run
    rw [hbody]

/-- The requests the sample create-path upsert issues. -/
def sampleUpsertTrace : List TrackerRequest :=
  [.listVersions "PRJ" "v1.2.0", .getProject "PRJ",
    .createVersion
      { name := "v1.2.0", description := some "desc", released := false,
        releaseDate := none, archived := false }
      (some "10000")]

theorem claim8_witness :
    validateInput sampleInputs = .ok sampleInputs ∧
    sampleInputs.dry_run = false ∧
    sampleInputs.operation = "create_or_update" ∧
    upsertProjectVersion sampleWorld sampleInputs.jira_project
        (mkUpsertSpec sampleInputs) =
      (.ok ⟨some "100", some "v1.2.0"⟩, sampleUpsertTrace) ∧
    sampleInputs.tickets = "AB-1, AB-2" ∧
    sampleWorld.tagError "AB-1" = none ∧
    (run sampleWorld sampleInputs).2 =
      sampleUpsertTrace ++
        [.tagIssue (some "100") "AB-1", .tagIssue (some "100") "AB-2"] :=
  ⟨by decide, rfl, rfl, by decide, rfl, rfl,
    ((claim8_tickets_tagging sampleWorld sampleInputs sampleInputs
        ⟨some "100", some "v1.2.0"⟩ sampleUpsertTrace (by decide) rfl rfl
        (by decide)).1 rfl).2 rfl⟩

/-- A list of whitespace characters is rejected by the date parser: it can
never satisfy the `YYYY-MM-DD` shape. -/
theorem parseISODateList_all_ws {l : List Char}
    (h : ∀ c ∈ l, isJsWhitespace c = true) : parseISODateList l = none := by
  rcases l with _ | ⟨c1, _ | ⟨c2, _ | ⟨c3, _ | ⟨c4, _ | ⟨c5, _ | ⟨c6,
    _ | ⟨c7, _ | ⟨c8, _ | ⟨c9, _ | ⟨c10, _ | ⟨c11, rest⟩⟩⟩⟩⟩⟩⟩⟩⟩⟩⟩
  case cons.cons.cons.cons.cons.cons.cons.cons.cons.cons.nil =>
    have hc5 : isJsWhitespace c5 = true := h c5 (by simp)
    have hnot : ¬(c5 = '-' ∧ c8 = '-' ∧ isDecimalDigit c1 = true ∧
        isDecimalDigit c2 = true ∧ isDecimalDigit c3 = true ∧
        isDecimalDigit c4 = true ∧ isDecimalDigit c6 = true ∧
        isDecimalDigit c7 = true ∧ isDecimalDigit c9 = true ∧
        isDecimalDigit c10 = true) := by
      rintro ⟨h1, -⟩
      rw [h1] at hc5
      exact absurd hc5 (by decide)
    rw [parseISODateList_ten, if_neg hnot]
  all_goals rfl

/-- Trimming a whitespace-only string yields the empty string. -/
theorem jsTrim_all_ws {s : String}
    (h : ∀ c ∈ s.toList, isJsWhitespace c = true) : jsTrim s = "" := by
  unfold jsTrim
  rw [List.dropWhile_eq_nil_iff.mpr h]
  rfl

/-- C10: a non-empty, whitespace-only `release_release_date` passes input
validation (the check trims before testing), yet the `create_or_update`
path then hits the date-parse error branch during upsert's first
normalization, failing the run with `Invalid time value` before any
request. -/
theorem claim10_whitespace_date_validates_then_throws (w : TrackerWorld)
    (raw : Inputs) (hne : raw.release_release_date ≠ "")
    (hws : ∀ c ∈ raw.release_release_date.toList, isJsWhitespace c = true)
    (hop : raw.operation = "create_or_update") (hdr : raw.dry_run = false) :
    validateInput raw = .ok raw ∧
    run w raw = (.failed "Invalid time value", []) := by
  have htrim : jsTrim raw.release_release_date = "" := jsTrim_all_ws hws
  have hvalid : validateInput raw = .ok raw := by
    unfold validateInput
    rw [if_pos (Or.inl hop), htrim]
    rfl
  refine ⟨hvalid, ?_⟩
  have hparse : parseISODate raw.release_release_date = none :=
    parseISODateList_all_ws hws
  have htruthy : jsStrTruthy raw.release_release_date = true :=
    (jsStrTruthy_iff _).mpr hne
  have hdate : (mkUpsertSpec raw).releaseDate =
      some raw.release_release_date := by
    simp [mkUpsertSpec, hne]
  have hthrow : normalizeDateOrThrow (mkUpsertSpec raw).releaseDate =
      .error .invalidTimeValue := by
    simp [normalizeDateOrThrow, hdate, jsOptTruthy, htruthy,
      normalizeDateString, hparse]
  have hup : upsertProjectVersion w raw.jira_project (mkUpsertSpec raw) =
      (.error .invalidTimeValue, []) := by
    unfold upsertProjectVersion
    rw [hthrow]
  have hbody : runBody w raw = (.error .invalidTimeValue, []) := by
    simp [runBody, hvalid, hdr, hop, hup]
  unfold run
  rw [hbody]
  rfl

theorem claim10_witness :
    ({ sampleInputs with release_release_date := " " } :
        Inputs).release_release_date ≠ "" ∧
    (∀ c ∈ ({ sampleInputs with release_release_date := " " } :
        Inputs).release_release_date.toList, isJsWhitespace c = true) ∧
    validateInput { sampleInputs with release_release_date := " " } =
      .ok { sampleInputs with release_release_date := " " } ∧
    run sampleWorld { sampleInputs with release_release_date := " " } =
      (.failed "Invalid time value", []) := by
  refine ⟨by decide, by decide, ?_⟩
  exact claim10_whitespace_date_validates_then_throws sampleWorld
    { sampleInputs with release_release_date := " " } (by decide) (by decide)
    rfl rfl

end JiraRelease
